import Mathlib

/-!
SK_RPG player character: looked-at actor selection and interaction state machine

A shallow embedding of `SK_RPG/Private/Characters/SKPlayerCharacter.cpp`.

An engine number (`double`) is read as the rational it denotes, and the arithmetic of
the loop body is exact: the rounding of each single operation and NaN are outside the
model.  The `float` literals of the source stand for the values they have once widened
to `double`: `0.95f` is 15938355/16777216, `0.99f` is 4152361/4194304, and `10000.0f`
and `-1.0f` are 10000 and -1.  Engine services that the source calls but does not define
(`GetDirectionUnitVector`, `FVector::Distance`) are parameters of the model, so the
vectors and distances the loop reads may be any the engine returns, rounded ones
included.  The read lock taken in `GetLookedAtActor` guards the
list against concurrent writers and has no effect on the value computed; the vicinity
list is a `List` in iteration order.
-/

namespace SKRPG

/-! ## Engine values -/

/-- Three coordinates of an engine vector. -/
structure FVector where
  X : ℚ
  Y : ℚ
  Z : ℚ
deriving DecidableEq

/-- Engine `FVector::DotProduct`: the sum of the coordinate products. -/
def FVector.DotProduct (A B : FVector) : ℚ :=
  A.X * B.X + A.Y * B.Y + A.Z * B.Z

/-- Squared length of a vector. -/
def FVector.SizeSquared (A : FVector) : ℚ :=
  FVector.DotProduct A A

/-- Coordinate-wise difference `A - B`. -/
def FVector.sub (A B : FVector) : FVector :=
  ⟨A.X - B.X, A.Y - B.Y, A.Z - B.Z⟩

/-- Scaling of a vector by a number. -/
def FVector.scale (A : FVector) (k : ℚ) : FVector :=
  ⟨A.X * k, A.Y * k, A.Z * k⟩

/-- Engine `FMath::Clamp(X, Min, Max)`, which is `Max(Min(X, MaxValue), MinValue)`. -/
def Clamp (X MinValue MaxValue : ℚ) : ℚ :=
  max (min X MaxValue) MinValue

/-- An actor as the character code observes it: its identity, the origin that
`GetActorBounds` reports, whether its root component simulates physics, and its
in-game name when the actor is an `ASKCollectible` (so that
`Cast<ASKCollectible>` succeeds exactly when the field is `some`).  Every actor is taken
to have a root component, which `CanGrabItem` dereferences unchecked. -/
structure AActor where
  Name : Nat
  BoundsOrigin : FVector
  RootSimulatingPhysics : Bool
  InGameName : Option String
deriving DecidableEq

/-- The two readings the code takes from `PlayerCamera`. -/
structure UCameraComponent where
  ComponentLocation : FVector
  ForwardVector : FVector
deriving DecidableEq

/-- Engine geometry used by `GetLookedAtActor` and defined outside the sources:
`UKismetMathLibrary::GetDirectionUnitVector(From, To)` and
`FVector::Distance(V1, V2)`. -/
structure KismetMath where
  GetDirectionUnitVector : FVector → FVector → FVector
  Distance : FVector → FVector → ℚ

/-! ## Target selector -/

/-- Loop-carried variables of `GetLookedAtActor`. -/
structure LookState where
  BestDotProduct : ℚ
  LookedAtActor : Option AActor
deriving DecidableEq

/-- The `DotProduct` local of the loop body for one item. -/
def dotOf (M : KismetMath) (Cam : UCameraComponent) (Item : AActor) : ℚ :=
  FVector.DotProduct Cam.ForwardVector
    (M.GetDirectionUnitVector Cam.ComponentLocation Item.BoundsOrigin)

/-- The `float` literal `0.95f` of the source, widened to `double`. -/
def Float_0_95 : ℚ := 15938355 / 16777216

/-- The `float` literal `0.99f` of the source, widened to `double`. -/
def Float_0_99 : ℚ := 4152361 / 4194304

/-- The `Threshold` local of the loop body for one item:
`FMath::Clamp((Distance / 10000.0f) + 0.95f, 0.0f, 0.99f)`. -/
def thresholdOf (M : KismetMath) (Cam : UCameraComponent) (Item : AActor) : ℚ :=
  Clamp (M.Distance Cam.ComponentLocation Item.BoundsOrigin / 10000 + Float_0_95) 0 Float_0_99

/-- One iteration of the `for` loop in `GetLookedAtActor`. -/
def lookStep (M : KismetMath) (Cam : UCameraComponent) (st : LookState) (Item : AActor) :
    LookState :=
  let DotProduct := dotOf M Cam Item
  if DotProduct ≥ st.BestDotProduct then
    let BestDotProduct := DotProduct
    let Threshold := thresholdOf M Cam Item
    if BestDotProduct < Threshold then
      { BestDotProduct := BestDotProduct, LookedAtActor := none }
    else
      { BestDotProduct := BestDotProduct, LookedAtActor := some Item }
  else
    st

/-- The whole loop, started from a given state. -/
def lookLoop (M : KismetMath) (Cam : UCameraComponent) (Items : List AActor) (st : LookState) :
    LookState :=
  Items.foldl (lookStep M Cam) st

/-- `ASKPlayerCharacter::GetLookedAtActor`: the argument `LookedAtActor` is the value of
the output reference on entry, the result its value on return. -/
def GetLookedAtActor (M : KismetMath) (Cam : UCameraComponent)
    (InteractablesInVicinity : List AActor) (LookedAtActor : Option AActor) : Option AActor :=
  (lookLoop M Cam InteractablesInVicinity
    { BestDotProduct := -1, LookedAtActor := LookedAtActor }).LookedAtActor

/-- Readings that are unit vectors exactly: the camera's forward vector has length one
and each direction reading has length at most one.  Rounded readings need not satisfy
this; it holds in particular for a camera looking along an axis at items on that axis. -/
def UnitReadings (M : KismetMath) (Cam : UCameraComponent) (Items : List AActor) : Prop :=
  Cam.ForwardVector.SizeSquared = 1 ∧
    ∀ a ∈ Items, (M.GetDirectionUnitVector Cam.ComponentLocation a.BoundsOrigin).SizeSquared ≤ 1

instance (M : KismetMath) (Cam : UCameraComponent) (Items : List AActor) :
    Decidable (UnitReadings M Cam Items) := by
  unfold UnitReadings
  infer_instance

/-- The direction and distance readings for an item agree with the geometry of the
camera location and the item's bounds origin: the distance is the non-negative root of
the squared distance, and the direction scaled by the distance is the offset. -/
def SeenTruly (M : KismetMath) (Cam : UCameraComponent) (Item : AActor) : Prop :=
  0 ≤ M.Distance Cam.ComponentLocation Item.BoundsOrigin ∧
    M.Distance Cam.ComponentLocation Item.BoundsOrigin *
        M.Distance Cam.ComponentLocation Item.BoundsOrigin =
      (Item.BoundsOrigin.sub Cam.ComponentLocation).SizeSquared ∧
    (M.GetDirectionUnitVector Cam.ComponentLocation Item.BoundsOrigin).scale
        (M.Distance Cam.ComponentLocation Item.BoundsOrigin) =
      Item.BoundsOrigin.sub Cam.ComponentLocation

instance (M : KismetMath) (Cam : UCameraComponent) (Item : AActor) :
    Decidable (SeenTruly M Cam Item) := by
  unfold SeenTruly
  infer_instance

/-! ## Interaction state machine -/

/-- Modelled from the spec: the enumeration `EActionType` is declared in
`Core/SKCoreTypes.h`, which is not among the sources; the spec gives its values as
None, Grabbing and Rotating. -/
inductive EActionType where
  | ENone
  | EGrabbing
  | ERotating
deriving DecidableEq

/-- Modelled from the spec: `FInventoryItemData` is declared outside the sources; the
spec describes it as a simple value holding a name. -/
structure FInventoryItemData where
  Name : String
deriving DecidableEq

/-- Modelled from the spec: `USKInventoryWidget` is declared outside the sources; the
spec describes an inventory widget holding a list into which item data is transferred
on pickup. -/
structure USKInventoryWidget where
  InventoryList : List FInventoryItemData
deriving DecidableEq

/-- Modelled from the spec: `USKInventoryWidget::AddToInventoryList` puts the item data
into the widget's list (at its end). -/
def USKInventoryWidget.AddToInventoryList (W : USKInventoryWidget) (ItemData : FInventoryItemData) :
    USKInventoryWidget :=
  { InventoryList := W.InventoryList ++ [ItemData] }

/-- Modelled from the spec: `USKPhysicsHandleComponent` is declared outside the sources;
the spec describes a component holding an optional reference to the currently grabbed
physics body (its target transform is not read by the code embedded here and is left
out).  Its methods act on the component alone: by the spec the action type is mutated
only by the character's state machine. -/
structure USKPhysicsHandleComponent where
  ItemToGrab : Option AActor
deriving DecidableEq

/-- Modelled from the spec: `USKPhysicsHandleComponent::GrabItem` acquires the handle on
the character's current target. -/
def USKPhysicsHandleComponent.GrabItem (_H : USKPhysicsHandleComponent) (Target : Option AActor) :
    USKPhysicsHandleComponent :=
  { ItemToGrab := Target }

/-- Modelled from the spec: `USKPhysicsHandleComponent::ReleaseItem` releases the handle,
which then holds nothing. -/
def USKPhysicsHandleComponent.ReleaseItem (_H : USKPhysicsHandleComponent) :
    USKPhysicsHandleComponent :=
  { ItemToGrab := none }

/-- Modelled from the spec: `USKPhysicsHandleComponent::GetItemToGrab` reads the held
reference. -/
def USKPhysicsHandleComponent.GetItemToGrab (H : USKPhysicsHandleComponent) : Option AActor :=
  H.ItemToGrab

/-- The calls a member function of the character makes, in source order. -/
inductive Call where
  | SetActionType (NewType : EActionType)
  | GrabItem
  | ReleaseItem
  | AddToInventoryList (ItemData : FInventoryItemData)
  | BaseInteract
deriving DecidableEq

/-- The members of `ASKPlayerCharacter` that the interaction code reads or writes.  The
accessors `GetActionType` and `SetActionType` are declared outside the sources and are
read as the plain read and write of `ActionType`. -/
structure ASKPlayerCharacter where
  ActionType : EActionType
  InteractibleActive : Option AActor
  PhysicsHandle : USKPhysicsHandleComponent
  PlayerInventoryWidget : USKInventoryWidget
deriving DecidableEq

/-- Engine `Cast<ASKCollectible>`: the object itself when it is a collectible, null
otherwise (and null for null). -/
def CastToCollectible (Obj : Option AActor) : Option AActor :=
  match Obj with
  | none => none
  | some A => if A.InGameName.isSome then some A else none

/-- The accessor `ASKCollectible::GetInGameName` of a collectible. -/
def GetInGameName (Item : AActor) : String :=
  Item.InGameName.getD ""

/-- `ASKPlayerCharacter::Interact`.  The body of `ASKBaseCharacter::Interact` is outside
the sources; its invocation is recorded as the last call. -/
def Interact (s : ASKPlayerCharacter) : ASKPlayerCharacter × List Call :=
  if s.ActionType = EActionType.EGrabbing then
    ({ s with PhysicsHandle := s.PhysicsHandle.ReleaseItem, ActionType := EActionType.ENone },
      [Call.ReleaseItem, Call.SetActionType EActionType.ENone])
  else
    match CastToCollectible s.InteractibleActive with
    | none => (s, [])
    | some Item =>
      let ItemData : FInventoryItemData := { Name := GetInGameName Item }
      ({ s with PlayerInventoryWidget := s.PlayerInventoryWidget.AddToInventoryList ItemData },
        [Call.AddToInventoryList ItemData, Call.BaseInteract])

/-- `ASKPlayerCharacter::CanGrabItem`. -/
def CanGrabItem (s : ASKPlayerCharacter) : Bool :=
  match s.InteractibleActive with
  | none => false
  | some A =>
    if s.ActionType = EActionType.ENone ∧ A.RootSimulatingPhysics = true then true else false

/-- `ASKPlayerCharacter::HandleGrabbing`. -/
def HandleGrabbing (s : ASKPlayerCharacter) : ASKPlayerCharacter × List Call :=
  if CanGrabItem s = true then
    ({ s with
        ActionType := EActionType.EGrabbing,
        PhysicsHandle := s.PhysicsHandle.GrabItem s.InteractibleActive },
      [Call.SetActionType EActionType.EGrabbing, Call.GrabItem])
  else if ¬ CanGrabItem s = true ∧ s.PhysicsHandle.GetItemToGrab ≠ none then
    ({ s with PhysicsHandle := s.PhysicsHandle.ReleaseItem }, [Call.ReleaseItem])
  else
    (s, [])

/-- `ASKPlayerCharacter::HandleAlternativeAction`. -/
def HandleAlternativeAction (s : ASKPlayerCharacter) : ASKPlayerCharacter × List Call :=
  if s.ActionType = EActionType.EGrabbing then
    ({ s with ActionType := EActionType.ERotating }, [Call.SetActionType EActionType.ERotating])
  else if s.ActionType = EActionType.ERotating then
    ({ s with ActionType := EActionType.EGrabbing }, [Call.SetActionType EActionType.EGrabbing])
  else
    (s, [])

/-! ## Concrete scene used for evaluation -/

/-- Camera at the world origin looking along the X axis. -/
def camX : UCameraComponent :=
  { ComponentLocation := ⟨0, 0, 0⟩, ForwardVector := ⟨1, 0, 0⟩ }

/-- The `double` 0.7071067811865476, which normalising (3, 3, 0) gives for both
coordinates; it lies above the square root of one half. -/
def diagCoord : ℚ := 6369051672525773 / 9007199254740992

/-- Camera at the world origin looking along the diagonal of the X-Y plane, its forward
vector being the normalised (3, 3, 0) in `double` arithmetic. -/
def camDiag : UCameraComponent :=
  { ComponentLocation := ⟨0, 0, 0⟩, ForwardVector := ⟨diagCoord, diagCoord, 0⟩ }

/-- The place (500, 71.24610682302684, 0), both coordinates being `double` values. -/
def capPlace : FVector := ⟨500, 5013499064684097 / 70368744177664, 0⟩

/-- Direction and distance readings for the handful of points of the scene, seen from
the world origin.  For `capPlace` and for (-750, -750, 0) the readings are the `double`
values that normalising the offset and taking the root of its squared length give in
IEEE arithmetic: (0.9900000095367432, 0.14106729286850478, 0) at 505.05050018531625, and
(-0.7071067811865476, -0.7071067811865476, 0) at 1060.6601717798212. -/
def sceneMath : KismetMath where
  GetDirectionUnitVector := fun _ To =>
    if To = ⟨100, 0, 0⟩ ∨ To = ⟨200, 0, 0⟩ then ⟨1, 0, 0⟩
    else if To = ⟨48, 14, 0⟩ then ⟨24 / 25, 7 / 25, 0⟩
    else if To = ⟨400, 90, 0⟩ then ⟨40 / 41, 9 / 41, 0⟩
    else if To = capPlace then ⟨4152361 / 4194304, 2541242430387051 / 18014398509481984, 0⟩
    else if To = ⟨-750, -750, 0⟩ then ⟨-diagCoord, -diagCoord, 0⟩
    else ⟨0, 0, 0⟩
  Distance := fun _ To =>
    if To = ⟨100, 0, 0⟩ then 100
    else if To = ⟨200, 0, 0⟩ then 200
    else if To = ⟨48, 14, 0⟩ then 50
    else if To = ⟨400, 90, 0⟩ then 410
    else if To = capPlace then 8884942361085441 / 17592186044416
    else if To = ⟨-750, -750, 0⟩ then 1166208191990803 / 1099511627776
    else 0

/-- A physics prop at a given place. -/
def propAt (n : Nat) (p : FVector) : AActor :=
  { Name := n, BoundsOrigin := p, RootSimulatingPhysics := true, InGameName := none }

/-- Two props straight ahead of the camera, the second twice as far as the first. -/
def nearAhead : AActor := propAt 1 ⟨100, 0, 0⟩

/-- The farther of the two props straight ahead. -/
def farAhead : AActor := propAt 2 ⟨200, 0, 0⟩

/-- A prop at `capPlace`: seen from `camX` its dot product is the `double` value of
`0.99f`, and at its distance of about 505 the threshold is clamped to `0.99f`. -/
def atCap : AActor := propAt 3 capPlace

/-- A prop at distance 50 with dot product 24/25, above its threshold of about 0.955. -/
def nearOffAxis : AActor := propAt 4 ⟨48, 14, 0⟩

/-- A prop at distance 410 with dot product 40/41, below its threshold `0.99f`. -/
def farOffAxis : AActor := propAt 5 ⟨400, 90, 0⟩

/-- A prop straight behind the camera `camDiag`. -/
def behindDiag : AActor := propAt 6 ⟨-750, -750, 0⟩

/-- A collectible with an in-game name. -/
def coin : AActor :=
  { Name := 7, BoundsOrigin := ⟨100, 0, 0⟩, RootSimulatingPhysics := false,
    InGameName := some "Coin" }

/-- A character holding nothing, with an empty inventory list. -/
def idle (Target : Option AActor) : ASKPlayerCharacter :=
  { ActionType := EActionType.ENone, InteractibleActive := Target,
    PhysicsHandle := { ItemToGrab := none }, PlayerInventoryWidget := { InventoryList := [] } }

/-- A character in a given action state whose handle holds a prop. -/
def holding (T : EActionType) : ASKPlayerCharacter :=
  { ActionType := T, InteractibleActive := some (propAt 1 ⟨100, 0, 0⟩),
    PhysicsHandle := { ItemToGrab := some (propAt 1 ⟨100, 0, 0⟩) },
    PlayerInventoryWidget := { InventoryList := [] } }

/-! ## Facts about the selection loop -/

/-- An item whose dot product reaches the running best overwrites both loop variables. -/
theorem lookStep_of_le (M : KismetMath) (Cam : UCameraComponent) (st : LookState) (Item : AActor)
    (h : st.BestDotProduct ≤ dotOf M Cam Item) :
    lookStep M Cam st Item =
      { BestDotProduct := dotOf M Cam Item,
        LookedAtActor := if dotOf M Cam Item < thresholdOf M Cam Item then none else some Item } := by
  unfold lookStep
  simp only [ge_iff_le, h, if_true]
  split <;> rfl

/-- An item whose dot product is below the running best is skipped. -/
theorem lookStep_of_lt (M : KismetMath) (Cam : UCameraComponent) (st : LookState) (Item : AActor)
    (h : dotOf M Cam Item < st.BestDotProduct) :
    lookStep M Cam st Item = st := by
  unfold lookStep
  simp only [ge_iff_le, not_le.mpr h, if_false]

/-- Items that are all below the running best leave the loop state untouched. -/
theorem lookLoop_skip (M : KismetMath) (Cam : UCameraComponent) (Items : List AActor)
    (st : LookState) (h : ∀ a ∈ Items, dotOf M Cam a < st.BestDotProduct) :
    lookLoop M Cam Items st = st := by
  induction Items with
  | nil => rfl
  | cons x xs ih =>
    have hx : lookStep M Cam st x = st := lookStep_of_lt M Cam st x (h x (List.mem_cons_self x xs))
    show lookLoop M Cam xs (lookStep M Cam st x) = st
    rw [hx]
    exact ih (fun a ha => h a (List.mem_cons_of_mem x ha))

/-- The running best never rises above a bound on the start value and on the items seen. -/
theorem lookLoop_best_le (M : KismetMath) (Cam : UCameraComponent) (b : ℚ) (Items : List AActor) :
    ∀ st : LookState, st.BestDotProduct ≤ b → (∀ a ∈ Items, dotOf M Cam a ≤ b) →
      (lookLoop M Cam Items st).BestDotProduct ≤ b := by
  induction Items with
  | nil => intro st hst _; exact hst
  | cons x xs ih =>
    intro st hst h
    show (lookLoop M Cam xs (lookStep M Cam st x)).BestDotProduct ≤ b
    apply ih
    · rcases le_or_lt st.BestDotProduct (dotOf M Cam x) with hle | hlt
      · rw [lookStep_of_le M Cam st x hle]
        exact h x (List.mem_cons_self x xs)
      · rw [lookStep_of_lt M Cam st x hlt]
        exact hst
    · exact fun a ha => h a (List.mem_cons_of_mem x ha)

/-- The loop splits over a concatenation. -/
theorem lookLoop_append (M : KismetMath) (Cam : UCameraComponent) (Pre Post : List AActor)
    (st : LookState) :
    lookLoop M Cam (Pre ++ Post) st = lookLoop M Cam Post (lookLoop M Cam Pre st) := by
  unfold lookLoop
  exact List.foldl_append _ _ _ _

/-- The item that decides the loop: when `c` is at least every item before it, strictly
above every item after it, and at least the start value, the loop ends in the state that
`c` wrote. -/
theorem lookLoop_last_max (M : KismetMath) (Cam : UCameraComponent) (Pre Post : List AActor)
    (c : AActor) (st : LookState)
    (hst : st.BestDotProduct ≤ dotOf M Cam c)
    (hpre : ∀ a ∈ Pre, dotOf M Cam a ≤ dotOf M Cam c)
    (hpost : ∀ a ∈ Post, dotOf M Cam a < dotOf M Cam c) :
    lookLoop M Cam (Pre ++ c :: Post) st =
      { BestDotProduct := dotOf M Cam c,
        LookedAtActor := if dotOf M Cam c < thresholdOf M Cam c then none else some c } := by
  rw [lookLoop_append]
  have hbest := lookLoop_best_le M Cam (dotOf M Cam c) Pre st hst hpre
  show lookLoop M Cam Post (lookStep M Cam (lookLoop M Cam Pre st) c) = _
  rw [lookStep_of_le M Cam _ c hbest]
  exact lookLoop_skip M Cam Post _ hpost

/-- Every non-empty list has a last maximal item. -/
theorem exists_last_max (M : KismetMath) (Cam : UCameraComponent) (Items : List AActor)
    (hne : Items ≠ []) :
    ∃ Pre c Post, Items = Pre ++ c :: Post ∧
      (∀ a ∈ Pre, dotOf M Cam a ≤ dotOf M Cam c) ∧
      (∀ a ∈ Post, dotOf M Cam a < dotOf M Cam c) := by
  induction Items with
  | nil => exact absurd rfl hne
  | cons x xs ih =>
    by_cases hxs : xs = []
    · subst hxs
      exact ⟨[], x, [], rfl, by simp, by simp⟩
    · obtain ⟨Pre, c, Post, hsplit, hpre, hpost⟩ := ih hxs
      rcases le_or_lt (dotOf M Cam x) (dotOf M Cam c) with hle | hlt
      · refine ⟨x :: Pre, c, Post, by rw [hsplit]; rfl, ?_, hpost⟩
        intro a ha
        rcases List.mem_cons.mp ha with rfl | ha
        · exact hle
        · exact hpre a ha
      · refine ⟨[], x, xs, rfl, by simp, ?_⟩
        intro a ha
        rw [hsplit] at ha
        rcases List.mem_append.mp ha with ha | ha
        · exact lt_of_le_of_lt (hpre a ha) hlt
        · rcases List.mem_cons.mp ha with rfl | ha
          · exact hlt
          · exact lt_trans (hpost a ha) hlt

/-- A maximal item that is at least the start value decides the result: a list with
some dot product at least -1 splits at its last maximal item, and the result is that
item if its dot product is not below its threshold, and null otherwise. -/
theorem GetLookedAtActor_decided (M : KismetMath) (Cam : UCameraComponent)
    (Items : List AActor) (Prior : Option AActor)
    (hstart : ∃ a ∈ Items, -1 ≤ dotOf M Cam a) :
    ∃ c ∈ Items, (∀ a ∈ Items, dotOf M Cam a ≤ dotOf M Cam c) ∧
      GetLookedAtActor M Cam Items Prior =
        if dotOf M Cam c < thresholdOf M Cam c then none else some c := by
  obtain ⟨a0, ha0, hge⟩ := hstart
  have hne : Items ≠ [] := List.ne_nil_of_mem ha0
  obtain ⟨Pre, c, Post, hsplit, hpre, hpost⟩ := exists_last_max M Cam Items hne
  have hc : c ∈ Items := by rw [hsplit]; simp
  have hmax : ∀ a ∈ Items, dotOf M Cam a ≤ dotOf M Cam c := by
    intro a ha
    rw [hsplit] at ha
    rcases List.mem_append.mp ha with ha | ha
    · exact hpre a ha
    · rcases List.mem_cons.mp ha with rfl | ha
      · exact le_refl _
      · exact le_of_lt (hpost a ha)
  have hc1 : -1 ≤ dotOf M Cam c := le_trans hge (hmax a0 ha0)
  refine ⟨c, hc, hmax, ?_⟩
  unfold GetLookedAtActor
  rw [hsplit, lookLoop_last_max M Cam Pre Post c
    { BestDotProduct := -1, LookedAtActor := Prior } hc1 hpre hpost]

/-! ## Target selector: the claims -/

/-- C9: there are a camera and a vicinity list `[A, B]`, seen truly, in which `A` meets
its own threshold and alone would be selected, `B` comes after `A`, is farther from the
camera, has a greater dot product and fails its own larger threshold, and the result is
null: the pick `A` made in the first iteration is overwritten and rejected. -/
theorem GetLookedAtActor_valid_pick_overwritten :
    ∃ (M : KismetMath) (Cam : UCameraComponent) (A B : AActor),
      Cam.ForwardVector.SizeSquared = 1 ∧ SeenTruly M Cam A ∧ SeenTruly M Cam B ∧
      thresholdOf M Cam A ≤ dotOf M Cam A ∧
      GetLookedAtActor M Cam [A] none = some A ∧
      M.Distance Cam.ComponentLocation A.BoundsOrigin <
        M.Distance Cam.ComponentLocation B.BoundsOrigin ∧
      dotOf M Cam A < dotOf M Cam B ∧
      thresholdOf M Cam A < thresholdOf M Cam B ∧
      dotOf M Cam B < thresholdOf M Cam B ∧
      lookLoop M Cam [A] { BestDotProduct := -1, LookedAtActor := none } =
        { BestDotProduct := dotOf M Cam A, LookedAtActor := some A } ∧
      GetLookedAtActor M Cam [A, B] none = none :=
  ⟨sceneMath, camX, nearOffAxis, farOffAxis, by decide!⟩

/-- What `CanGrabItem` computes, in terms of the members it reads. -/
theorem CanGrabItem_iff (s : ASKPlayerCharacter) :
    CanGrabItem s = true ↔
      s.ActionType = EActionType.ENone ∧
        ∃ A, s.InteractibleActive = some A ∧ A.RootSimulatingPhysics = true := by
  unfold CanGrabItem
  cases hA : s.InteractibleActive with
  | none => simp
  | some A => simp

/-- C4: `HandleGrabbing` calls `SetActionType(EGrabbing)` and the handle's `GrabItem`
exactly when, on entry, the action type is None, `InteractibleActive` is non-null and the
target's root component simulates physics; in that case the action type on return is
Grabbing, and in every other state the action type is left as it was. -/
theorem HandleGrabbing_grabs_exactly_when (s : ASKPlayerCharacter) :
    (Call.GrabItem ∈ (HandleGrabbing s).2 ↔
        s.ActionType = EActionType.ENone ∧
          ∃ A, s.InteractibleActive = some A ∧ A.RootSimulatingPhysics = true) ∧
      (Call.SetActionType EActionType.EGrabbing ∈ (HandleGrabbing s).2 ↔
        s.ActionType = EActionType.ENone ∧
          ∃ A, s.InteractibleActive = some A ∧ A.RootSimulatingPhysics = true) ∧
      ((s.ActionType = EActionType.ENone ∧
          ∃ A, s.InteractibleActive = some A ∧ A.RootSimulatingPhysics = true) →
        (HandleGrabbing s).1.ActionType = EActionType.EGrabbing ∧
          (HandleGrabbing s).2 = [Call.SetActionType EActionType.EGrabbing, Call.GrabItem]) ∧
      (¬ (s.ActionType = EActionType.ENone ∧
          ∃ A, s.InteractibleActive = some A ∧ A.RootSimulatingPhysics = true) →
        (HandleGrabbing s).1.ActionType = s.ActionType) := by
  rw [← CanGrabItem_iff]
  unfold HandleGrabbing
  by_cases hcan : CanGrabItem s = true
  · simp [hcan]
  · by_cases hitem : s.PhysicsHandle.GetItemToGrab = none
    · simp [hcan, hitem]
    · simp [hcan, hitem]

/-- C5 fails on the code: for a character that is Grabbing with an item in the handle,
`CanGrabItem` is false and `HandleGrabbing` releases the handle, but the action type on
return is still Grabbing, not None, and a further `HandleGrabbing` does nothing;
`Interact` on the same state does set the action type to None. -/
theorem HandleGrabbing_release_leaves_Grabbing :
    (holding EActionType.EGrabbing).ActionType = EActionType.EGrabbing ∧
      (holding EActionType.EGrabbing).PhysicsHandle.GetItemToGrab ≠ none ∧
      CanGrabItem (holding EActionType.EGrabbing) = false ∧
      HandleGrabbing (holding EActionType.EGrabbing) =
        ({ holding EActionType.EGrabbing with PhysicsHandle := { ItemToGrab := none } },
          [Call.ReleaseItem]) ∧
      (HandleGrabbing (holding EActionType.EGrabbing)).1.ActionType = EActionType.EGrabbing ∧
      (HandleGrabbing (holding EActionType.EGrabbing)).1.ActionType ≠ EActionType.ENone ∧
      HandleGrabbing (HandleGrabbing (holding EActionType.EGrabbing)).1 =
        ((HandleGrabbing (holding EActionType.EGrabbing)).1, []) ∧
      (Interact (holding EActionType.EGrabbing)).1.ActionType = EActionType.ENone := by
  decide

/-- C6: when the action type is Grabbing, `Interact` releases the handle and then sets
the action type to None; the inventory list is untouched, nothing is added to it and the
base character's `Interact` is not called. -/
theorem Interact_when_Grabbing (s : ASKPlayerCharacter)
    (h : s.ActionType = EActionType.EGrabbing) :
    Interact s =
        ({ s with PhysicsHandle := s.PhysicsHandle.ReleaseItem, ActionType := EActionType.ENone },
          [Call.ReleaseItem, Call.SetActionType EActionType.ENone]) ∧
      (Interact s).1.ActionType = EActionType.ENone ∧
      (Interact s).1.PhysicsHandle.GetItemToGrab = none ∧
      (Interact s).1.PlayerInventoryWidget = s.PlayerInventoryWidget ∧
      Call.BaseInteract ∉ (Interact s).2 ∧
      ∀ ItemData, Call.AddToInventoryList ItemData ∉ (Interact s).2 := by
  have hI : Interact s =
      ({ s with PhysicsHandle := s.PhysicsHandle.ReleaseItem, ActionType := EActionType.ENone },
        [Call.ReleaseItem, Call.SetActionType EActionType.ENone]) := by
    unfold Interact
    simp [h]
  rw [hI]
  refine ⟨rfl, rfl, rfl, rfl, ?_, ?_⟩
  · simp
  · intro ItemData
    simp

/-- Witness for C6 on a character that is Grabbing and holds a prop. -/
theorem Interact_when_Grabbing_witness :
    (holding EActionType.EGrabbing).ActionType = EActionType.EGrabbing ∧
      (Interact (holding EActionType.EGrabbing) =
          ({ holding EActionType.EGrabbing with
              PhysicsHandle := (holding EActionType.EGrabbing).PhysicsHandle.ReleaseItem,
              ActionType := EActionType.ENone },
            [Call.ReleaseItem, Call.SetActionType EActionType.ENone]) ∧
        (Interact (holding EActionType.EGrabbing)).1.ActionType = EActionType.ENone ∧
        (Interact (holding EActionType.EGrabbing)).1.PhysicsHandle.GetItemToGrab = none ∧
        (Interact (holding EActionType.EGrabbing)).1.PlayerInventoryWidget =
          (holding EActionType.EGrabbing).PlayerInventoryWidget ∧
        Call.BaseInteract ∉ (Interact (holding EActionType.EGrabbing)).2 ∧
        ∀ ItemData, Call.AddToInventoryList ItemData ∉
          (Interact (holding EActionType.EGrabbing)).2) :=
  ⟨by decide, Interact_when_Grabbing (holding EActionType.EGrabbing) (by decide)⟩

/-- C7: `HandleAlternativeAction` takes Grabbing to Rotating, Rotating to Grabbing and
leaves a character in None as it is; applied twice it gives back the starting state; the
action type on return is None exactly when it was None on entry; and no other member
changes. -/
theorem HandleAlternativeAction_toggles (s : ASKPlayerCharacter) :
    (HandleAlternativeAction { s with ActionType := EActionType.EGrabbing }).1 =
        { s with ActionType := EActionType.ERotating } ∧
      (HandleAlternativeAction { s with ActionType := EActionType.ERotating }).1 =
        { s with ActionType := EActionType.EGrabbing } ∧
      HandleAlternativeAction { s with ActionType := EActionType.ENone } =
        ({ s with ActionType := EActionType.ENone }, []) ∧
      (HandleAlternativeAction (HandleAlternativeAction s).1).1 = s ∧
      ((HandleAlternativeAction s).1.ActionType = EActionType.ENone ↔
        s.ActionType = EActionType.ENone) ∧
      (HandleAlternativeAction s).1 =
        { s with ActionType := (HandleAlternativeAction s).1.ActionType } := by
  obtain ⟨t, a, h, w⟩ := s
  cases t <;> simp [HandleAlternativeAction]

/-- C8: when the action type is not Grabbing, `Interact` returns at once, changing
nothing and calling nothing, if `InteractibleActive` is null or is not a collectible;
and if it is a collectible, `Interact` appends exactly one entry carrying the
collectible's in-game name to the inventory list, changes no other member, and only then
calls the base character's `Interact`. -/
theorem Interact_pickup (s : ASKPlayerCharacter)
    (h : s.ActionType ≠ EActionType.EGrabbing) :
    ((s.InteractibleActive = none ∨
          ∃ A, s.InteractibleActive = some A ∧ A.InGameName = none) →
        Interact s = (s, [])) ∧
      (∀ A InGameName, s.InteractibleActive = some A → A.InGameName = some InGameName →
        Interact s =
          ({ s with
              PlayerInventoryWidget :=
                { InventoryList :=
                    s.PlayerInventoryWidget.InventoryList ++ [{ Name := InGameName }] } },
            [Call.AddToInventoryList { Name := InGameName }, Call.BaseInteract])) := by
  constructor
  · rintro (hnone | ⟨A, hA, hname⟩)
    · unfold Interact
      simp [h, hnone, CastToCollectible]
    · unfold Interact
      simp [h, hA, hname, CastToCollectible]
  · intro A InGameName hA hname
    unfold Interact
    simp [h, hA, hname, CastToCollectible, GetInGameName,
      USKInventoryWidget.AddToInventoryList]

/-- Witness for C8 on an idle character looking at a collectible named "Coin". -/
theorem Interact_pickup_witness :
    (idle (some coin)).ActionType ≠ EActionType.EGrabbing ∧
      (((idle (some coin)).InteractibleActive = none ∨
            ∃ A, (idle (some coin)).InteractibleActive = some A ∧ A.InGameName = none) →
          Interact (idle (some coin)) = (idle (some coin), [])) ∧
      (∀ A InGameName, (idle (some coin)).InteractibleActive = some A →
        A.InGameName = some InGameName →
        Interact (idle (some coin)) =
          ({ idle (some coin) with
              PlayerInventoryWidget :=
                { InventoryList :=
                    (idle (some coin)).PlayerInventoryWidget.InventoryList ++
                      [{ Name := InGameName }] } },
            [Call.AddToInventoryList { Name := InGameName }, Call.BaseInteract])) :=
  ⟨by decide, Interact_pickup (idle (some coin)) (by decide)⟩

end SKRPG
